import Mathlib

/-!
Shallow embedding of the ChronoCrypt KMS backend credential / audit subsystem.

Strings from the TypeScript sources are modelled as lists of characters
(abbreviation Str) so that the JavaScript split on the dot character can be
embedded directly.  Millisecond timestamps are natural numbers.  The bcrypt
hash and verification functions live in an external library, so they enter
the embedding as explicit function parameters; database tables are lists of
rows and Prisma lookups become list searches.
-/

namespace ChronoKMS

/-- Strings, as lists of characters. -/
abbrev Str := List Char

/-! ## JavaScript split on the dot separator

Embedding of the expression fullApiKey.split('.') used in
src/apps/backend/src/auth/api-keys.ts line 53. -/

/-- JavaScript String.prototype.split('.'): cuts the string at every dot.
The result is never empty ("".split('.') is [""]). -/
def splitOnDot : Str → List Str
  | [] => [[]]
  | c :: rest =>
    match splitOnDot rest with
    | [] => if c = '.' then [[], []] else [[c]]
    | s :: ss => if c = '.' then [] :: s :: ss else (c :: s) :: ss

theorem splitOnDot_ne_nil (s : Str) : splitOnDot s ≠ [] := by
  induction s with
  | nil => simp [splitOnDot]
  | cons c rest ih =>
    simp only [splitOnDot]
    cases h : splitOnDot rest with
    | nil => by_cases hc : c = '.' <;> simp [hc]
    | cons a as => by_cases hc : c = '.' <;> simp [hc]

theorem splitOnDot_no_dot (s : Str) (h : '.' ∉ s) : splitOnDot s = [s] := by
  induction s with
  | nil => simp [splitOnDot]
  | cons c rest ih =>
    simp only [List.mem_cons, not_or] at h
    have hc : ¬ c = '.' := fun hcc => h.1 hcc.symm
    simp only [splitOnDot, ih h.2]
    simp [hc]

/-- Splitting a ++ "." ++ b when neither side contains a dot yields [a, b]. -/
theorem splitOnDot_append (a b : Str) (ha : '.' ∉ a) (hb : '.' ∉ b) :
    splitOnDot (a ++ '.' :: b) = [a, b] := by
  induction a with
  | nil =>
    simp only [List.nil_append, splitOnDot, splitOnDot_no_dot b hb]
    simp
  | cons c rest ih =>
    simp only [List.mem_cons, not_or] at ha
    have hc : ¬ c = '.' := fun hcc => ha.1 hcc.symm
    simp only [List.cons_append, splitOnDot, List.append_eq]
    rw [ih ha.2]
    simp [hc]

/-! ## Data model (Prisma rows used by the auth layer)

Embeds the Requester and ApiKey tables consumed by
src/apps/backend/src/auth/api-keys.ts.  A database is a pair of row lists;
the Prisma findUnique lookups become list searches on the unique column. -/

/-- Requester row: id, display name, enabled flag. -/
structure Requester where
  id : Str
  name : Str
  enabled : Bool
  deriving DecidableEq, Repr

/-- ApiKey row as persisted by Prisma.  The keySecret column holds the
bcrypt hash written at creation, never the plaintext. -/
structure ApiKeyRow where
  id : Str
  keyId : Str
  keySecret : Str
  name : Str
  requesterId : Str
  enabled : Bool
  expiresAt : Option Nat
  lastUsedAt : Option Nat
  createdAt : Nat
  createdBy : Str
  deriving DecidableEq, Repr

/-- The two tables the auth layer reads. -/
structure Db where
  apiKeys : List ApiKeyRow
  requesters : List Requester
  deriving DecidableEq, Repr

/-- prisma.apiKey.findUnique on the unique keyId column. -/
def findApiKey (db : Db) (keyId : Str) : Option ApiKeyRow :=
  db.apiKeys.find? (fun k => k.keyId == keyId)

/-- The include requester join: look up the owning Requester row. -/
def findRequester (db : Db) (rid : Str) : Option Requester :=
  db.requesters.find? (fun r => r.id == rid)

/-! ## ApiKeyAuthenticator (src/apps/backend/src/auth/api-keys.ts) -/

/-- Result of a successful validation (keyId, requesterId, requesterName). -/
structure ValidatedKey where
  keyId : Str
  requesterId : Str
  requesterName : Str
  deriving DecidableEq, Repr

/-- The expiry test apiKey.expiresAt && apiKey.expiresAt < new Date():
a null expiresAt is falsy, otherwise compare with the current instant. -/
def keyExpired (expiresAt : Option Nat) (now : Nat) : Bool :=
  match expiresAt with
  | some t => decide (t < now)
  | none => false

/-- validateApiKey (api-keys.ts lines 47-102).  bcrypt verification is the
verify parameter; now is the clock.  The fire-and-forget lastUsedAt update
on success is asynchronous and never observable in the returned value, so
it does not appear in the embedding. -/
def validateApiKey (db : Db) (verify : Str → Str → Bool) (now : Nat)
    (fullApiKey : Str) : Option ValidatedKey :=
  match splitOnDot fullApiKey with
  | [keyId, keySecret] =>
    match findApiKey db keyId with
    | none => none
    | some apiKey =>
      match findRequester db apiKey.requesterId with
      | none => none
      | some requester =>
        if !apiKey.enabled then none
        else if keyExpired apiKey.expiresAt now then none
        else if !requester.enabled then none
        else if !(verify keySecret apiKey.keySecret) then none
        else some { keyId := apiKey.keyId, requesterId := apiKey.requesterId,
                    requesterName := requester.name }
  | _ => none

/-- Validation written exactly as the spec's ordered short-circuit list:
(a) malformed format, (b) keyId not found, (c) credential disabled,
(d) credential expired, (e) owning Requester disabled, (f) hash
verification fails; only then is the identity returned.  Stated from the
spec's words, for comparison with validateApiKey. -/
def validateApiKeySpecOrder (db : Db) (verify : Str → Str → Bool) (now : Nat)
    (fullApiKey : Str) : Option ValidatedKey :=
  let parts := splitOnDot fullApiKey
  if parts.length ≠ 2 then none                              -- (a)
  else
    let keyId := parts.getD 0 []
    let keySecret := parts.getD 1 []
    match findApiKey db keyId with
    | none => none                                            -- (b)
    | some apiKey =>
      match findRequester db apiKey.requesterId with
      | none => none
      | some requester =>
        if apiKey.enabled = false then none                   -- (c)
        else if keyExpired apiKey.expiresAt now = true then none -- (d)
        else if requester.enabled = false then none           -- (e)
        else if verify keySecret apiKey.keySecret = false then none -- (f)
        else some { keyId := apiKey.keyId, requesterId := apiKey.requesterId,
                    requesterName := requester.name }

/-- Claim C1: validateApiKey applies exactly the spec's ordered short-circuit
checks — (a) not exactly two dot-separated parts, (b) keyId not found,
(c) credential disabled, (d) credential expired, (e) owning Requester
disabled, (f) secret fails hash verification — each failure yielding the
Unauthorized null result, and the requester identity is returned iff all
six checks pass. -/
theorem validateApiKey_check_order (db : Db) (verify : Str → Str → Bool)
    (now : Nat) (s : Str) :
    validateApiKey db verify now s = validateApiKeySpecOrder db verify now s ∧
    (∀ r, validateApiKey db verify now s = some r ↔
      ∃ keyId keySecret apiKey requester,
        splitOnDot s = [keyId, keySecret] ∧
        findApiKey db keyId = some apiKey ∧
        findRequester db apiKey.requesterId = some requester ∧
        apiKey.enabled = true ∧
        keyExpired apiKey.expiresAt now = false ∧
        requester.enabled = true ∧
        verify keySecret apiKey.keySecret = true ∧
        r = { keyId := apiKey.keyId, requesterId := apiKey.requesterId,
              requesterName := requester.name }) := by
  constructor
  · unfold validateApiKey validateApiKeySpecOrder
    cases hsp : splitOnDot s with
    | nil => simp
    | cons a as =>
      cases as with
      | nil => simp
      | cons b bs =>
        cases bs with
        | nil =>
          simp only [List.length_cons, List.length_nil, List.getD]
          norm_num
        | cons c cs => simp
  · intro r
    unfold validateApiKey
    cases hsp : splitOnDot s with
    | nil => simp
    | cons a as =>
      cases as with
      | nil => simp
      | cons b bs =>
        cases bs with
        | nil =>
          cases hk : findApiKey db a with
          | none => simp [hk]
          | some apiKey =>
            cases hr : findRequester db apiKey.requesterId with
            | none => simp [hk, hr]
            | some requester =>
              cases he : apiKey.enabled <;>
                cases hx : keyExpired apiKey.expiresAt now <;>
                  cases hre : requester.enabled <;>
                    cases hv : verify b apiKey.keySecret <;>
                      simp [hk, hr, he, hx, hre, hv]
              constructor
              · intro h
                exact ⟨a, b, ⟨rfl, rfl⟩, apiKey, hk, requester, hr, he, hx,
                       hre, hv, h.symm⟩
              · rintro ⟨kid, ks, ⟨rfl, rfl⟩, aK, hk2, req2, hr2, he2, hx2,
                        hre2, hv2, hrr⟩
                rw [hk] at hk2
                obtain rfl : apiKey = aK := Option.some.inj hk2
                rw [hr] at hr2
                obtain rfl : requester = req2 := Option.some.inj hr2
                exact hrr.symm
        | cons c cs => simp

/-! ## API key creation and listing routes (backend index route file)

POST /api/requesters/:id/api-keys persists the bcrypt hash and returns the
plaintext composite credential once; GET /api/api-keys projects rows to a
view without the stored secret hash. -/

/-- Row written by prisma.apiKey.create in the creation route: the
keySecret column receives hashFn applied to the generated plaintext. -/
def createApiKeyRow (hashFn : Str → Str) (keyId keySecret name rid : Str)
    (expiresAt : Option Nat) (rowId : Str) (now : Nat) : ApiKeyRow :=
  { id := rowId
    keyId := keyId
    keySecret := hashFn keySecret
    name := name
    requesterId := rid
    enabled := true
    expiresAt := expiresAt
    lastUsedAt := none
    createdAt := now
    createdBy := "system".toList }

/-- The apiKey object of the 201 creation response (no secret field). -/
structure CreatedKeyView where
  id : Str
  keyId : Str
  name : Str
  requesterId : Str
  enabled : Bool
  expiresAt : Option Nat
  createdAt : Nat
  deriving DecidableEq, Repr

/-- Projection of the persisted row into the creation response. -/
def createdKeyViewOfRow (row : ApiKeyRow) : CreatedKeyView :=
  { id := row.id
    keyId := row.keyId
    name := row.name
    requesterId := row.requesterId
    enabled := row.enabled
    expiresAt := row.expiresAt
    createdAt := row.createdAt }

/-- Body of the 201 creation response. -/
structure CreateKeyResponse where
  apiKey : CreatedKeyView
  fullApiKey : Str
  warning : Str
  deriving DecidableEq, Repr

/-- The creation route: generate row and response.  keyId and keySecret
come from generateApiKeyPair; hashFn is bcrypt hashApiKeySecret. -/
def createApiKeyRoute (hashFn : Str → Str) (keyId keySecret name rid : Str)
    (expiresAt : Option Nat) (rowId : Str) (now : Nat) :
    ApiKeyRow × CreateKeyResponse :=
  let row := createApiKeyRow hashFn keyId keySecret name rid expiresAt rowId now
  (row,
   { apiKey := createdKeyViewOfRow row
     fullApiKey := keyId ++ '.' :: keySecret
     warning := "Save this key now! It will not be shown again.".toList })

/-- Requester sub-object selected by the list route (id and name only). -/
structure RequesterRef where
  id : Str
  name : Str
  deriving DecidableEq, Repr

/-- Element of the GET /api/api-keys response: every row field except the
stored keySecret hash. -/
structure ApiKeyListEntry where
  id : Str
  keyId : Str
  name : Str
  requester : Option RequesterRef
  enabled : Bool
  expiresAt : Option Nat
  lastUsedAt : Option Nat
  createdAt : Nat
  createdBy : Str
  deriving DecidableEq, Repr

/-- Projection of one row (with its joined requester) to the list view. -/
def listEntryOfRow (row : ApiKeyRow) (req : Option Requester) :
    ApiKeyListEntry :=
  { id := row.id
    keyId := row.keyId
    name := row.name
    requester := req.map (fun r => { id := r.id, name := r.name })
    enabled := row.enabled
    expiresAt := row.expiresAt
    lastUsedAt := row.lastUsedAt
    createdAt := row.createdAt
    createdBy := row.createdBy }

/-- GET /api/api-keys: map every stored row to its secretless view.  The
route also orders rows by createdAt descending; ordering is presentation
only and does not change which fields are exposed. -/
def listApiKeys (db : Db) : List ApiKeyListEntry :=
  db.apiKeys.map (fun k => listEntryOfRow k (findRequester db k.requesterId))

/-- Replace the stored secret hash of every row (used to state that
outputs do not depend on that column). -/
def scrubSecrets (db : Db) (f : Str → Str) : Db :=
  { db with apiKeys := db.apiKeys.map (fun k => { k with keySecret := f k.keySecret }) }

/-- Claim C2: the persisted row stores only the one-way hash of the
generated secret; the plaintext appears exactly once in the creation
response — as the composite fullApiKey keyId.keySecret, while the
response's apiKey view is independent of the secret — and the list
operation's output is independent of every stored secret hash, so it never
contains a secret or its hash. -/
theorem apiKeySecret_stored_hashed_and_never_listed
    (hashFn : Str → Str) (keyId keySecret name rid : Str)
    (expiresAt : Option Nat) (rowId : Str) (now : Nat) :
    (createApiKeyRoute hashFn keyId keySecret name rid expiresAt rowId
        now).1.keySecret = hashFn keySecret ∧
    (hashFn keySecret ≠ keySecret →
      (createApiKeyRoute hashFn keyId keySecret name rid expiresAt rowId
          now).1.keySecret ≠ keySecret) ∧
    (createApiKeyRoute hashFn keyId keySecret name rid expiresAt rowId
        now).2.fullApiKey = keyId ++ '.' :: keySecret ∧
    (∀ s', (createApiKeyRoute hashFn keyId keySecret name rid expiresAt rowId
        now).2.apiKey =
      (createApiKeyRoute hashFn keyId s' name rid expiresAt rowId
          now).2.apiKey) ∧
    (∀ db f, listApiKeys (scrubSecrets db f) = listApiKeys db) := by
  refine ⟨rfl, fun h => h, rfl, fun s' => rfl, fun db f => ?_⟩
  unfold listApiKeys scrubSecrets listEntryOfRow findRequester
  simp

/-- Hash stand-in for the creation witness: prepend a marker character,
so the hash of a secret is never the secret. -/
def hashW : Str → Str := fun s => 'h' :: s

/-- Witness for the creation claim at concrete inputs: the stored column
is the hash, differs from the plaintext, and the response carries the
composite credential. -/
theorem apiKeySecret_stored_hashed_witness :
    (createApiKeyRoute hashW ("ck_a".toList) ("sk_b".toList) ("n".toList)
        ("r1".toList) none ("row1".toList) 5).1.keySecret =
      'h' :: "sk_b".toList ∧
    (createApiKeyRoute hashW ("ck_a".toList) ("sk_b".toList) ("n".toList)
        ("r1".toList) none ("row1".toList) 5).1.keySecret ≠
      "sk_b".toList ∧
    (createApiKeyRoute hashW ("ck_a".toList) ("sk_b".toList) ("n".toList)
        ("r1".toList) none ("row1".toList) 5).2.fullApiKey =
      "ck_a".toList ++ '.' :: "sk_b".toList := by
  have h := apiKeySecret_stored_hashed_and_never_listed hashW ("ck_a".toList)
    ("sk_b".toList) ("n".toList) ("r1".toList) none ("row1".toList) 5
  exact ⟨h.1, h.2.1 (by decide), h.2.2.1⟩

/-! ## POST /api/access-requests (route handler, both backend variants)

The handler validates with  if (!request.requesterId || !request.timeRange)
and otherwise calls kms.authorizeAccess(request) unchanged.  A falsy
requesterId is the empty string; timeRange is falsy when absent. -/

/-- timeRange of an access request body. -/
structure TimeRangeReq where
  startTime : Nat
  endTime : Nat
  deriving DecidableEq, Repr

/-- Parsed access request body. -/
structure AccessReqBody where
  requesterId : Str
  timeRange : Option TimeRangeReq
  purpose : Option Str
  deriving DecidableEq, Repr

/-- What the handler does before computing a response: reject with the
400 validation error, or delegate the unchanged request to the
key-holder service. -/
inductive AccessRouteStep
  | badRequest
  | delegated (request : AccessReqBody)
  deriving DecidableEq, Repr

/-- Validation step of POST /api/access-requests: reject iff requesterId
is falsy (empty) or timeRange is falsy (missing), else delegate. -/
def accessRequestValidation (request : AccessReqBody) : AccessRouteStep :=
  if request.requesterId.isEmpty || request.timeRange.isNone then
    AccessRouteStep.badRequest
  else
    AccessRouteStep.delegated request

/-- Request with an inverted time range (startTime 2000 > endTime 1000). -/
def invertedRangeRequest : AccessReqBody :=
  { requesterId := "analyst-001".toList
    timeRange := some { startTime := 2000, endTime := 1000 }
    purpose := none }

/-- Claim C3 counterexample: a request whose timeRange has
startTime > endTime is not rejected by the route's validation; it is
delegated to the key-holder, so no HTTP 400 is signaled before
delegation. -/
theorem invertedRange_delegated_not_rejected :
    (invertedRangeRequest.timeRange.map TimeRangeReq.startTime = some 2000) ∧
    (invertedRangeRequest.timeRange.map TimeRangeReq.endTime = some 1000) ∧
    2000 > 1000 ∧
    accessRequestValidation invertedRangeRequest =
      AccessRouteStep.delegated invertedRangeRequest := by
  refine ⟨rfl, rfl, by norm_num, ?_⟩
  rfl

/-- Claim C3 (amended): the route signals the validation failure before
delegation exactly when requesterId is empty or timeRange is missing; the
relation between startTime and endTime is not checked, and any other
request is delegated unchanged to the key-holder. -/
theorem accessRequestValidation_characterization (request : AccessReqBody) :
    (accessRequestValidation request = AccessRouteStep.badRequest ↔
      request.requesterId = [] ∨ request.timeRange = none) ∧
    (accessRequestValidation request ≠ AccessRouteStep.badRequest →
      accessRequestValidation request = AccessRouteStep.delegated request) := by
  unfold accessRequestValidation
  constructor
  · cases hr : request.requesterId <;> cases ht : request.timeRange <;>
      simp [List.isEmpty, Option.isNone]
  · intro h
    by_cases hc : request.requesterId.isEmpty || request.timeRange.isNone
    · exact absurd (by simp [hc]) h
    · simp [hc]

/-- Well-formed request used for the validation witness. -/
def c3wRequest : AccessReqBody :=
  { requesterId := "svc-1".toList
    timeRange := some { startTime := 1, endTime := 2 }
    purpose := none }

/-- Witness for the amended validation claim: a request with a non-empty
requesterId and a present timeRange is delegated unchanged. -/
theorem accessRequestValidation_characterization_witness :
    accessRequestValidation c3wRequest =
      AccessRouteStep.delegated c3wRequest :=
  (accessRequestValidation_characterization c3wRequest).2 (by decide)

/-! ## Audit events and the request correlator (GET /api/access-requests)

Audit entries come back from kms.getAuditLogs() ordered by timestamp
ascending.  The route filters them, paginates, keeps the ACCESS_REQUEST
entries of the page, and attaches a status computed with
entries.find(ae => ae.actor === e.actor && ae.timestamp > e.timestamp &&
(ae.eventType === ACCESS_GRANTED || ae.eventType === ACCESS_DENIED)). -/

/-- Audit event types recorded by the key-holder. -/
inductive EventType
  | ACCESS_REQUEST
  | ACCESS_GRANTED
  | ACCESS_DENIED
  | KEY_DERIVED
  | KEY_DISTRIBUTED
  deriving DecidableEq, Repr, BEq

/-- One immutable audit log entry. -/
structure AuditEvent where
  id : Str
  timestamp : Nat
  eventType : EventType
  actor : Str
  target : Option Str
  success : Bool
  deriving DecidableEq, Repr

/-- Reconstructed per-request status reported by the route. -/
inductive ReqStatus
  | granted
  | denied
  deriving DecidableEq, Repr

/-- The find predicate of the correlation: same actor as the request
event, strictly later timestamp, outcome event type. -/
def outcomeMatch (e ae : AuditEvent) : Bool :=
  ae.actor == e.actor && decide (ae.timestamp > e.timestamp) &&
    (ae.eventType == EventType.ACCESS_GRANTED ||
     ae.eventType == EventType.ACCESS_DENIED)

/-- The outcome event the correlator pairs with a request event: the
first match of the find call over the filtered entries. -/
def attributedOutcome (entries : List AuditEvent) (e : AuditEvent) :
    Option AuditEvent :=
  entries.find? (outcomeMatch e)

/-- Status the route reports: granted when the found event's type is
ACCESS_GRANTED, denied otherwise — including when nothing is found. -/
def correlateStatus (entries : List AuditEvent) (e : AuditEvent) : ReqStatus :=
  match attributedOutcome entries e with
  | some ae =>
    if ae.eventType = EventType.ACCESS_GRANTED then ReqStatus.granted
    else ReqStatus.denied
  | none => ReqStatus.denied

/-- One element of the route's requests array. -/
structure RequestView where
  id : Str
  timestamp : Nat
  requesterId : Str
  status : ReqStatus
  deriving DecidableEq, Repr

/-- GET /api/access-requests: filter by requester, time range and status,
paginate, then map the page's ACCESS_REQUEST entries to views whose status
is correlated against the filtered (pre-pagination) entries list. -/
def listAccessRequests (allEntries : List AuditEvent)
    (requesterId : Option Str) (range : Option (Nat × Nat))
    (statusQ : Option ReqStatus) (limit offset : Nat) : List RequestView :=
  let entries₁ :=
    match requesterId with
    | some rid => allEntries.filter (fun (e : AuditEvent) => e.actor == rid)
    | none => allEntries
  let entries₂ :=
    match range with
    | some (s, t) =>
      entries₁.filter (fun (e : AuditEvent) =>
        decide (s ≤ e.timestamp) && decide (e.timestamp ≤ t))
    | none => entries₁
  let entries :=
    match statusQ with
    | some ReqStatus.granted =>
      entries₂.filter (fun (e : AuditEvent) => e.eventType == EventType.ACCESS_GRANTED)
    | some ReqStatus.denied =>
      entries₂.filter (fun (e : AuditEvent) => e.eventType == EventType.ACCESS_DENIED)
    | none => entries₂
  let paginated := (entries.drop offset).take limit
  (paginated.filter (fun (e : AuditEvent) => e.eventType == EventType.ACCESS_REQUEST)).map
    (fun (e : AuditEvent) =>
      { id := e.id
        timestamp := e.timestamp
        requesterId := e.actor
        status := correlateStatus entries e })

/-- The spec's matching condition for an outcome event: actor or target
equals the requester, timestamp strictly later, outcome event type.
Stated from the spec's words, for comparison with outcomeMatch. -/
def specOutcomeMatch (e ae : AuditEvent) : Bool :=
  (ae.actor == e.actor || ae.target == some e.actor) &&
    decide (ae.timestamp > e.timestamp) &&
    (ae.eventType == EventType.ACCESS_GRANTED ||
     ae.eventType == EventType.ACCESS_DENIED)

/-- Earliest event satisfying the spec's matching condition.  Stated from
the spec's words, for comparison with attributedOutcome. -/
def specEarliestOutcome (entries : List AuditEvent) (e : AuditEvent) :
    Option AuditEvent :=
  (entries.filter (specOutcomeMatch e)).foldl
    (fun acc ae =>
      match acc with
      | none => some ae
      | some b => if ae.timestamp < b.timestamp then some ae else some b)
    none

/-- Status prescribed by the spec's algorithm: the type of the earliest
matching outcome event, when one exists. -/
def specCorrelateStatus (entries : List AuditEvent) (e : AuditEvent) :
    Option ReqStatus :=
  (specEarliestOutcome entries e).map
    (fun ae =>
      if ae.eventType = EventType.ACCESS_GRANTED then ReqStatus.granted
      else ReqStatus.denied)

/-- In a list sorted by a measure, the first element satisfying a
predicate has the least measure among all satisfying elements. -/
theorem find?_minimal {α : Type} (f : α → Nat) (p : α → Bool) :
    ∀ (l : List α), l.Pairwise (fun x y => f x ≤ f y) →
      ∀ a, l.find? p = some a → ∀ b ∈ l, p b = true → f a ≤ f b := by
  intro l
  induction l with
  | nil => intro _ a ha; simp [List.find?] at ha
  | cons x xs ih =>
    intro hp a hfind b hb hpb
    rcases List.pairwise_cons.mp hp with ⟨hx_le, hp_tail⟩
    cases hx : p x with
    | true =>
      rw [List.find?_cons_of_pos _ hx] at hfind
      obtain rfl : x = a := Option.some.inj hfind
      rcases List.mem_cons.mp hb with rfl | hb'
      · exact le_refl _
      · exact hx_le b hb'
    | false =>
      rw [List.find?_cons_of_neg _ (by simp [hx])] at hfind
      rcases List.mem_cons.mp hb with rfl | hb'
      · rw [hx] at hpb; exact absurd hpb (by simp)
      · exact ih hp_tail a hfind b hb' hpb

/-- Request event whose outcome was recorded with the requester in the
target field (the outcome actor is the key-holder, as the audit trail
writes it). -/
def c4request : AuditEvent :=
  { id := "evt-1".toList, timestamp := 100,
    eventType := EventType.ACCESS_REQUEST,
    actor := "analyst-001".toList, target := none, success := true }

/-- Outcome event for c4request: granted, actor is the key-holder,
target is the requester. -/
def c4outcome : AuditEvent :=
  { id := "evt-2".toList, timestamp := 200,
    eventType := EventType.ACCESS_GRANTED,
    actor := "kms-main".toList, target := some ("analyst-001".toList),
    success := true }

/-- The correlation window holding the request and its outcome. -/
def c4entries : List AuditEvent := [c4request, c4outcome]

/-- Claim C4 counterexample: in a window where the only outcome event
carries the requester in its target field, the spec's scan (actor or
target equals the requester) selects that granted event, but the code's
correlation matches on actor only, finds nothing, and reports denied. -/
theorem correlateStatus_ignores_target :
    specCorrelateStatus c4entries c4request = some ReqStatus.granted ∧
    correlateStatus c4entries c4request = ReqStatus.denied ∧
    ReqStatus.denied ≠ ReqStatus.granted := by
  refine ⟨by decide, by decide, by decide⟩

/-- Claim C4 (amended): for every candidate request event E (actor R,
timestamp t) the correlator scans the filtered entries for events with
actor equal to R — the target field is not consulted — and timestamp
greater than t whose type is an outcome type, takes the first such event
of the timestamp-ascending list (hence one with the earliest timestamp),
and reports granted when its type is ACCESS_GRANTED and denied otherwise;
when no event matches it reports denied. -/
theorem correlateStatus_earliest_actor_match (entries : List AuditEvent)
    (e : AuditEvent)
    (hsorted : entries.Pairwise (fun x y => x.timestamp ≤ y.timestamp)) :
    (∀ ae, attributedOutcome entries e = some ae →
      ae ∈ entries ∧ outcomeMatch e ae = true ∧
      (∀ ae' ∈ entries, outcomeMatch e ae' = true →
        ae.timestamp ≤ ae'.timestamp) ∧
      correlateStatus entries e =
        (if ae.eventType = EventType.ACCESS_GRANTED then ReqStatus.granted
         else ReqStatus.denied)) ∧
    (attributedOutcome entries e = none →
      (∀ ae' ∈ entries, outcomeMatch e ae' = false) ∧
      correlateStatus entries e = ReqStatus.denied) := by
  constructor
  · intro ae hfind
    refine ⟨List.mem_of_find?_eq_some hfind, List.find?_some hfind,
            find?_minimal AuditEvent.timestamp (outcomeMatch e) entries
              hsorted ae hfind, ?_⟩
    unfold correlateStatus
    rw [hfind]
  · intro hnone
    constructor
    · intro ae' hmem
      have := List.find?_eq_none.mp hnone ae' hmem
      simpa using this
    · unfold correlateStatus
      rw [hnone]

/-- Witness window for the amended correlation claim: one request and one
later actor-matching granted outcome, timestamps ascending. -/
def c4wRequest : AuditEvent :=
  { id := "evt-10".toList, timestamp := 100,
    eventType := EventType.ACCESS_REQUEST,
    actor := "analyst-007".toList, target := none, success := true }

/-- Outcome event for c4wRequest with matching actor. -/
def c4wOutcome : AuditEvent :=
  { id := "evt-11".toList, timestamp := 150,
    eventType := EventType.ACCESS_GRANTED,
    actor := "analyst-007".toList, target := none, success := true }

/-- Window for the amended correlation witness. -/
def c4wEntries : List AuditEvent := [c4wRequest, c4wOutcome]

/-- Witness for the amended correlation claim at a concrete sorted
window: the correlator attributes the granted outcome and reports
granted. -/
theorem correlateStatus_earliest_actor_match_witness :
    correlateStatus c4wEntries c4wRequest = ReqStatus.granted := by
  have h :=
    (correlateStatus_earliest_actor_match c4wEntries c4wRequest
      (by decide)).1 c4wOutcome (by decide)
  have hs := h.2.2.2
  simpa using hs

/-- First request event of the shared-outcome window. -/
def c5req1 : AuditEvent :=
  { id := "evt-21".toList, timestamp := 100,
    eventType := EventType.ACCESS_REQUEST,
    actor := "analyst-002".toList, target := none, success := true }

/-- Second request event, same actor, later timestamp. -/
def c5req2 : AuditEvent :=
  { id := "evt-22".toList, timestamp := 200,
    eventType := EventType.ACCESS_REQUEST,
    actor := "analyst-002".toList, target := none, success := true }

/-- Single outcome event following both requests. -/
def c5outcome : AuditEvent :=
  { id := "evt-23".toList, timestamp := 300,
    eventType := EventType.ACCESS_GRANTED,
    actor := "analyst-002".toList, target := none, success := true }

/-- Window with two requests and one outcome. -/
def c5entries : List AuditEvent := [c5req1, c5req2, c5outcome]

/-- Claim C5 counterexample: two distinct request-submitted events with
distinct timestamps in the same window are both attributed the very same
outcome event by the correlator. -/
theorem sameOutcome_attributed_twice :
    c5req1 ≠ c5req2 ∧
    c5req1.timestamp ≠ c5req2.timestamp ∧
    c5req1.eventType = EventType.ACCESS_REQUEST ∧
    c5req2.eventType = EventType.ACCESS_REQUEST ∧
    c5req1 ∈ c5entries ∧ c5req2 ∈ c5entries ∧
    attributedOutcome c5entries c5req1 = some c5outcome ∧
    attributedOutcome c5entries c5req2 = some c5outcome := by
  refine ⟨by decide, by decide, rfl, rfl, by decide, by decide,
          by decide, by decide⟩

/-- Claim C5 (amended): the correlator attributes at most one outcome to
a given request event over a given window — the find call returns a single
event — but it can attribute the same outcome event to two different
request events even when their timestamps are distinct. -/
theorem attributedOutcome_unique_per_request :
    (∀ (entries : List AuditEvent) (e a b : AuditEvent),
      attributedOutcome entries e = some a →
      attributedOutcome entries e = some b → a = b) ∧
    (∃ (entries : List AuditEvent) (e₁ e₂ a : AuditEvent),
      e₁ ≠ e₂ ∧ e₁.timestamp ≠ e₂.timestamp ∧
      e₁.eventType = EventType.ACCESS_REQUEST ∧
      e₂.eventType = EventType.ACCESS_REQUEST ∧
      attributedOutcome entries e₁ = some a ∧
      attributedOutcome entries e₂ = some a) := by
  constructor
  · intro entries e a b h1 h2
    rw [h1] at h2
    exact Option.some.inj h2
  · exact ⟨c5entries, c5req1, c5req2, c5outcome, by decide, by decide,
           rfl, rfl, by decide, by decide⟩

/-- Witness for the amended uniqueness claim at a concrete window. -/
theorem attributedOutcome_unique_per_request_witness :
    c5outcome = c5outcome :=
  attributedOutcome_unique_per_request.1 c5entries c5req1 c5outcome c5outcome
    (by decide) (by decide)

/-! ## KMSPersistentService.authorizeAccess (services/kms-persistent.ts)

The delegated decision is computed first; the history write is wrapped in
try/catch whose catch only logs, so the response is returned unchanged. -/

/-- AccessResponse from the key-holder: granted flag, per-timestamp keys,
optional denial reason. -/
structure AccessResponse where
  granted : Bool
  privateKeys : List (Nat × Str)
  denialReason : Option Str
  deriving DecidableEq, Repr

/-- Console output produced by authorizeAccess. -/
inductive LogLine
  | historySaveFailed (message : Str)
  deriving DecidableEq, Repr

/-- authorizeAccess (kms-persistent.ts lines 114-127): delegate to the
key-holder, then try to save the history row; a save error is logged and
swallowed.  Returns the response together with the log output. -/
def authorizeAccess
    (keyHolderAuthorize : AccessReqBody → AccessResponse)
    (saveHistory : AccessReqBody → AccessResponse → Except Str Unit)
    (request : AccessReqBody) : AccessResponse × List LogLine :=
  let response := keyHolderAuthorize request
  match saveHistory request response with
  | Except.ok _ => (response, [])
  | Except.error e => (response, [LogLine.historySaveFailed e])

/-- Claim C6: authorizeAccess always returns exactly the key-holder's
response — granted flag, keys and denialReason unchanged — regardless of
the history write's outcome; when the write fails the failure only shows
up in the log and is never surfaced to the caller. -/
theorem authorizeAccess_response_unchanged
    (keyHolderAuthorize : AccessReqBody → AccessResponse)
    (saveHistory : AccessReqBody → AccessResponse → Except Str Unit)
    (request : AccessReqBody) :
    (authorizeAccess keyHolderAuthorize saveHistory request).1 =
      keyHolderAuthorize request ∧
    (∀ msg,
      saveHistory request (keyHolderAuthorize request) = Except.error msg →
      authorizeAccess keyHolderAuthorize saveHistory request =
        (keyHolderAuthorize request, [LogLine.historySaveFailed msg])) := by
  constructor
  · cases h : saveHistory request (keyHolderAuthorize request) <;>
      simp [authorizeAccess, h]
  · intro msg hmsg
    simp [authorizeAccess, hmsg]

/-- Always-failing history store used for the C6 witness. -/
def failingSave (_ : AccessReqBody) (_ : AccessResponse) : Except Str Unit :=
  Except.error "db down".toList

/-- Always-granting key-holder used for the C6 witness. -/
def grantingKeyHolder (_ : AccessReqBody) : AccessResponse :=
  { granted := true, privateKeys := [(1000, "jwk".toList)], denialReason := none }

/-- Ordinary request used for the C6 witness. -/
def c6request : AccessReqBody :=
  { requesterId := "analyst-003".toList
    timeRange := some { startTime := 1000, endTime := 1000 }
    purpose := none }

/-- Witness: with a deliberately failing history store the caller still
receives the granted response with its keys; the failure is only in the
log. -/
theorem authorizeAccess_response_unchanged_witness :
    authorizeAccess grantingKeyHolder failingSave c6request =
      ({ granted := true, privateKeys := [(1000, "jwk".toList)],
         denialReason := none },
       [LogLine.historySaveFailed ("db down".toList)]) :=
  (authorizeAccess_response_unchanged grantingKeyHolder failingSave
    c6request).2 ("db down".toList) rfl

/-! ## Admin sessions (src/apps/backend/src/auth/admin.ts)

The in-memory Map of sessions is modelled as an association list in
insertion order; Date.now() is the explicit now parameter. -/

/-- Stored admin session. -/
structure Session where
  sessionId : Str
  username : Str
  adminId : Str
  createdAt : Nat
  expiresAt : Nat
  deriving DecidableEq, Repr

/-- The module-level sessions Map. -/
abbrev SessionStore := List (Str × Session)

/-- Map.get: first entry with the key, if any. -/
def storeGet (store : SessionStore) (sessionId : Str) : Option Session :=
  (store.find? (fun p => p.1 == sessionId)).map (fun p => p.2)

/-- Map.delete: remove every entry with the key (keys are unique, so at
most one). -/
def storeDelete (store : SessionStore) (sessionId : Str) : SessionStore :=
  store.filter (fun p => !(p.1 == sessionId))

/-- Map.set: overwrite the entry in place if the key exists, otherwise
append. -/
def storeSet (store : SessionStore) (sessionId : Str) (s : Session) :
    SessionStore :=
  if store.any (fun p => p.1 == sessionId) then
    store.map (fun p => if p.1 == sessionId then (sessionId, s) else p)
  else store ++ [(sessionId, s)]

/-- SESSION_EXPIRY_MS = 24 * 60 * 60 * 1000 (24 hours). -/
def sessionExpiryMs : Nat := 24 * 60 * 60 * 1000

/-- createSession (admin.ts lines 50-63): mint the session with
expiresAt = now + SESSION_EXPIRY_MS and store it.  The freshly generated
session id is the newSessionId parameter. -/
def createSession (store : SessionStore) (newSessionId adminId username : Str)
    (now : Nat) : SessionStore :=
  storeSet store newSessionId
    { sessionId := newSessionId, username := username, adminId := adminId,
      createdAt := now, expiresAt := now + sessionExpiryMs }

/-- validateSession (admin.ts lines 68-82): missing id returns null;
an entry with Date.now() > expiresAt is deleted and null returned;
otherwise the stored session is returned and nothing is modified. -/
def validateSession (now : Nat) (store : SessionStore) (sessionId : Str) :
    Option Session × SessionStore :=
  match storeGet store sessionId with
  | none => (none, store)
  | some session =>
    if session.expiresAt < now then (none, storeDelete store sessionId)
    else (some session, store)

/-- After deleting a session id, lookup of that id misses. -/
theorem storeGet_storeDelete (store : SessionStore) (sessionId : Str) :
    storeGet (storeDelete store sessionId) sessionId = none := by
  unfold storeGet storeDelete
  have hfind : List.find? (fun p => p.1 == sessionId)
      (List.filter (fun p => !(p.1 == sessionId)) store) = none := by
    rw [List.find?_eq_none]
    intro p hp
    have hmem := List.mem_filter.mp hp
    simpa using hmem.2
  rw [hfind]
  rfl

/-- Overwriting an existing key makes lookup return the new entry. -/
theorem find?_map_overwrite (sessionId : Str) (s : Session) :
    ∀ store : SessionStore, store.any (fun p => p.1 == sessionId) = true →
      List.find? (fun p => p.1 == sessionId)
        (store.map (fun p => if p.1 == sessionId then (sessionId, s) else p)) =
        some (sessionId, s) := by
  intro store
  induction store with
  | nil => intro h; simp at h
  | cons p rest ih =>
    intro hmem
    rw [List.map_cons]
    by_cases hp : (p.1 == sessionId) = true
    · rw [if_pos hp]
      simp [List.find?_cons]
    · rw [if_neg hp]
      have hp' : (p.1 == sessionId) = false := by simpa using hp
      rw [List.find?_cons, hp']
      apply ih
      rcases List.any_eq_true.mp hmem with ⟨q, hq, hq2⟩
      rcases List.mem_cons.mp hq with rfl | hq'
      · exact absurd hq2 hp
      · exact List.any_eq_true.mpr ⟨q, hq', hq2⟩

/-- Appending a fresh key makes lookup return the appended entry. -/
theorem find?_append_fresh (sessionId : Str) (s : Session) :
    ∀ store : SessionStore, store.any (fun p => p.1 == sessionId) = false →
      List.find? (fun p => p.1 == sessionId) (store ++ [(sessionId, s)]) =
        some (sessionId, s) := by
  intro store
  induction store with
  | nil =>
    intro _
    rw [List.nil_append]
    simp [List.find?_cons]
  | cons p rest ih =>
    intro hmem
    rw [List.any_cons, Bool.or_eq_false_iff] at hmem
    rw [List.cons_append, List.find?_cons, hmem.1]
    exact ih hmem.2

/-- Map.set followed by Map.get of the same key yields the new session. -/
theorem storeGet_storeSet (store : SessionStore) (sessionId : Str)
    (s : Session) :
    storeGet (storeSet store sessionId s) sessionId = some s := by
  unfold storeGet storeSet
  by_cases hmem : store.any (fun p => p.1 == sessionId) = true
  · rw [if_pos hmem, find?_map_overwrite sessionId s store hmem]
    rfl
  · rw [if_neg hmem,
        find?_append_fresh sessionId s store (Bool.eq_false_iff.mpr hmem)]
    rfl

/-- Claim C7: validateSession returns null for an id never created; for a
stored session whose expiry has passed it deletes that session and
returns null, so a later validateSession with the same id is again a
clean null; otherwise it returns the stored session with the store
untouched. -/
theorem validateSession_expiry (now : Nat) (store : SessionStore)
    (sessionId : Str) :
    (storeGet store sessionId = none →
      validateSession now store sessionId = (none, store)) ∧
    (∀ session, storeGet store sessionId = some session →
      session.expiresAt < now →
      validateSession now store sessionId =
        (none, storeDelete store sessionId) ∧
      (∀ later, (validateSession later (storeDelete store sessionId)
        sessionId).1 = none)) ∧
    (∀ session, storeGet store sessionId = some session →
      ¬ session.expiresAt < now →
      validateSession now store sessionId = (some session, store)) := by
  refine ⟨fun h => ?_, fun session h hexp => ⟨?_, fun later => ?_⟩,
          fun session h hlive => ?_⟩
  · simp [validateSession, h]
  · simp [validateSession, h, hexp]
  · simp [validateSession, storeGet_storeDelete]
  · simp [validateSession, h, hlive]

/-- Session stored for the witness scenarios, expiring at 1000. -/
def wSession : Session :=
  { sessionId := "tok-1".toList, username := "root".toList,
    adminId := "adm-1".toList, createdAt := 0, expiresAt := 1000 }

/-- Store holding only wSession. -/
def wStore : SessionStore := [("tok-1".toList, wSession)]

/-- Witness for the expiry claim: at time 1001 the session is evicted and
null returned, the follow-up lookup is a clean miss, at time 1000 the
session is still returned, and an unknown id misses. -/
theorem validateSession_expiry_witness :
    validateSession 1001 wStore ("tok-1".toList) = (none, []) ∧
    (validateSession 1001 [] ("tok-1".toList)).1 = none ∧
    validateSession 1000 wStore ("tok-1".toList) = (some wSession, wStore) ∧
    validateSession 1001 wStore ("tok-2".toList) = (none, wStore) := by
  have h := validateSession_expiry 1001 wStore ("tok-1".toList)
  have hexp := h.2.1 wSession (by decide) (by decide)
  refine ⟨?_, ?_, ?_, ?_⟩
  · have := hexp.1
    simpa using this
  · have := hexp.2 1001
    simpa using this
  · exact (validateSession_expiry 1000 wStore ("tok-1".toList)).2.2 wSession
      (by decide) (by decide)
  · exact (validateSession_expiry 1001 wStore ("tok-2".toList)).1 (by decide)

/-- Claim C10: a successful validateSession leaves the whole session map
unchanged and returns the stored session as is — expiry is a fixed TTL
from creation, not a sliding window — and a created session has
expiresAt = createdAt + 24 hours. -/
theorem validateSession_no_mutation (now : Nat) (store : SessionStore)
    (sessionId : Str) :
    (∀ session, (validateSession now store sessionId).1 = some session →
      validateSession now store sessionId = (some session, store) ∧
      storeGet store sessionId = some session) ∧
    (∀ (newSessionId adminId username : Str) (t : Nat),
      storeGet (createSession store newSessionId adminId username t)
          newSessionId =
        some { sessionId := newSessionId, username := username,
               adminId := adminId, createdAt := t,
               expiresAt := t + sessionExpiryMs } ∧
      sessionExpiryMs = 24 * 60 * 60 * 1000) := by
  constructor
  · intro session hsome
    cases hget : storeGet store sessionId with
    | none =>
      exfalso
      simp [validateSession, hget] at hsome
    | some s =>
      by_cases hexp : s.expiresAt < now
      · exfalso
        simp [validateSession, hget, hexp] at hsome
      · have hfst : (validateSession now store sessionId).1 = some s := by
          simp [validateSession, hget, hexp]
        rw [hfst] at hsome
        obtain rfl : s = session := Option.some.inj hsome
        exact ⟨by simp [validateSession, hget, hexp], rfl⟩
  · intro newSessionId adminId username t
    exact ⟨storeGet_storeSet store newSessionId _, rfl⟩

/-- Session used for the fixed-TTL witness: created at 0, so it expires
at sessionExpiryMs. -/
def w10Session : Session :=
  { sessionId := "tok-9".toList, username := "root".toList,
    adminId := "adm-1".toList, createdAt := 0,
    expiresAt := sessionExpiryMs }

/-- Store holding only w10Session. -/
def w10Store : SessionStore := [("tok-9".toList, w10Session)]

/-- Witness for the fixed-TTL claim: a successful validation at time 5
returns the stored session and leaves the store untouched, and a freshly
created session carries expiresAt = createdAt + 24 hours. -/
theorem validateSession_no_mutation_witness :
    validateSession 5 w10Store ("tok-9".toList) = (some w10Session, w10Store) ∧
    storeGet (createSession w10Store ("tok-8".toList) ("adm-1".toList)
        ("root".toList) 7) ("tok-8".toList) =
      some { sessionId := "tok-8".toList, username := "root".toList,
             adminId := "adm-1".toList, createdAt := 7,
             expiresAt := 7 + sessionExpiryMs } := by
  have h := validateSession_no_mutation 5 w10Store ("tok-9".toList)
  exact ⟨(h.1 w10Session (by decide)).1,
         (h.2 ("tok-8".toList) ("adm-1".toList) ("root".toList) 7).1⟩

/-! ## Audit statistics (storage/prisma-audit-log.ts getStatistics)

The database aggregation queries are evaluated over the stored entry
list: counts by predicate, and successRate guarded by total > 0. -/

/-- Result of PrismaAuditLog.getStatistics. -/
structure AuditStatistics where
  totalEntries : Nat
  entriesByType : EventType → Nat
  entriesByActor : Str → Nat
  successRate : ℚ

/-- getStatistics (prisma-audit-log.ts lines 99-147): total count, group
counts, success count, and successRate = total > 0 ? success / total : 0. -/
def getStatistics (entries : List AuditEvent) : AuditStatistics :=
  let total := entries.length
  let successCount := (entries.filter (fun e => e.success)).length
  { totalEntries := total
    entriesByType := fun t =>
      (entries.filter (fun e => e.eventType == t)).length
    entriesByActor := fun a =>
      (entries.filter (fun e => e.actor == a)).length
    successRate :=
      if total > 0 then (successCount : ℚ) / (total : ℚ) else 0 }

/-- Claim C8: successRate is the number of success-flagged entries divided
by the total number of entries, and is exactly 0 whenever totalEntries is
0 — no division happens in that case. -/
theorem getStatistics_successRate (entries : List AuditEvent) :
    ((getStatistics entries).totalEntries = 0 →
      (getStatistics entries).successRate = 0) ∧
    ((getStatistics entries).totalEntries > 0 →
      (getStatistics entries).successRate =
        ((entries.filter (fun e => e.success)).length : ℚ) /
          (entries.length : ℚ)) := by
  constructor
  · intro h0
    have hlen : entries.length = 0 := h0
    simp [getStatistics, hlen]
  · intro hpos
    have hlen : entries.length > 0 := hpos
    simp [getStatistics, hlen]

/-- Two entries, one flagged success, used for the statistics witness. -/
def statsEntries : List AuditEvent :=
  [{ id := "evt-31".toList, timestamp := 100,
     eventType := EventType.ACCESS_REQUEST,
     actor := "analyst-004".toList, target := none, success := true },
   { id := "evt-32".toList, timestamp := 200,
     eventType := EventType.ACCESS_DENIED,
     actor := "analyst-004".toList, target := none, success := false }]

/-- Witness: the empty log yields successRate exactly 0, and a two-entry
log with one success yields 1 / 2. -/
theorem getStatistics_successRate_witness :
    (getStatistics []).successRate = 0 ∧
    (getStatistics statsEntries).successRate = 1 / 2 := by
  constructor
  · exact (getStatistics_successRate []).1 rfl
  · have h := (getStatistics_successRate statsEntries).2 (by decide)
    rw [h]
    norm_num [statsEntries]

/-! ## generateApiKeyPair (auth/api-keys.ts lines 17-27)

randomBytes(16).toString('hex') and randomBytes(32).toString('base64url')
are embedded as encoders over explicit byte lists (the randomness is the
parameter). -/

/-- Lowercase hex digit alphabet used by Buffer.toString('hex'). -/
def hexDigitChars : List Char := "0123456789abcdef".toList

/-- Hex digit of a nibble value. -/
def hexDigit (n : Nat) : Char := hexDigitChars.getD n '0'

/-- Two hex digits of one byte (high nibble then low nibble). -/
def byteToHex (b : Nat) : Str := [hexDigit (b / 16), hexDigit (b % 16)]

/-- Buffer.toString('hex'). -/
def bytesToHex (bs : List Nat) : Str := bs.flatMap byteToHex

/-- The base64url alphabet. -/
def base64Chars : List Char :=
  ("ABCDEFGHIJKLMNOPQRSTUVWXYZabcdefghijklmnopqrstuvwxyz" ++
   "0123456789-_").toList

/-- Character of one 6-bit value. -/
def base64Char (n : Nat) : Char := base64Chars.getD n 'A'

/-- Buffer.toString('base64url'): 3-byte groups become 4 characters, a
final group of 1 or 2 bytes becomes 2 or 3 characters, no padding. -/
def base64urlEncode : List Nat → Str
  | [] => []
  | [b1] => [base64Char (b1 / 4), base64Char (b1 % 4 * 16)]
  | [b1, b2] =>
    [base64Char (b1 / 4), base64Char (b1 % 4 * 16 + b2 / 16),
     base64Char (b2 % 16 * 4)]
  | b1 :: b2 :: b3 :: rest =>
    base64Char (b1 / 4) :: base64Char (b1 % 4 * 16 + b2 / 16) ::
    base64Char (b2 % 16 * 4 + b3 / 64) :: base64Char (b3 % 64) ::
    base64urlEncode rest

/-- generateApiKeyPair: keyId = "ck_" + hex of 16 random bytes,
keySecret = "sk_" + base64url of 32 random bytes.  The random byte
sequences are the parameters. -/
def generateApiKeyPair (keyIdBytes keySecretBytes : List Nat) : Str × Str :=
  ("ck_".toList ++ bytesToHex keyIdBytes,
   "sk_".toList ++ base64urlEncode keySecretBytes)

/-- A getD result is in the list as soon as the default is. -/
theorem getD_mem_of_default_mem {l : List Char} {d : Char} (hd : d ∈ l)
    (n : Nat) : l.getD n d ∈ l := by
  rw [List.getD_eq_getElem?_getD]
  cases h : l[n]? with
  | none => simpa using hd
  | some c =>
    have hc := List.getElem?_mem h
    simpa using hc

theorem hexDigit_mem (n : Nat) : hexDigit n ∈ hexDigitChars :=
  getD_mem_of_default_mem (by decide) n

theorem base64Char_mem (n : Nat) : base64Char n ∈ base64Chars :=
  getD_mem_of_default_mem (by decide) n

theorem bytesToHex_chars (bs : List Nat) :
    ∀ c ∈ bytesToHex bs, c ∈ hexDigitChars := by
  intro c hc
  obtain ⟨b, _, hcb⟩ := List.mem_flatMap.mp hc
  rcases List.mem_cons.mp hcb with rfl | h2
  · exact hexDigit_mem _
  · rcases List.mem_cons.mp h2 with rfl | h3
    · exact hexDigit_mem _
    · simp at h3

theorem bytesToHex_length (bs : List Nat) :
    (bytesToHex bs).length = 2 * bs.length := by
  induction bs with
  | nil => simp [bytesToHex]
  | cons b rest ih =>
    simp only [bytesToHex, List.flatMap_cons] at ih ⊢
    simp [byteToHex, ih]
    ring

theorem base64urlEncode_chars :
    ∀ (bs : List Nat), ∀ c ∈ base64urlEncode bs, c ∈ base64Chars
  | [] => by simp [base64urlEncode]
  | [b1] => by
    intro c hc
    rcases List.mem_cons.mp hc with rfl | hc2
    · exact base64Char_mem _
    · rcases List.mem_cons.mp hc2 with rfl | hc3
      · exact base64Char_mem _
      · simp at hc3
  | [b1, b2] => by
    intro c hc
    rcases List.mem_cons.mp hc with rfl | hc2
    · exact base64Char_mem _
    · rcases List.mem_cons.mp hc2 with rfl | hc3
      · exact base64Char_mem _
      · rcases List.mem_cons.mp hc3 with rfl | hc4
        · exact base64Char_mem _
        · simp at hc4
  | b1 :: b2 :: b3 :: rest => by
    intro c hc
    rcases List.mem_cons.mp hc with rfl | hc2
    · exact base64Char_mem _
    · rcases List.mem_cons.mp hc2 with rfl | hc3
      · exact base64Char_mem _
      · rcases List.mem_cons.mp hc3 with rfl | hc4
        · exact base64Char_mem _
        · rcases List.mem_cons.mp hc4 with rfl | hc5
          · exact base64Char_mem _
          · exact base64urlEncode_chars rest c hc5

/-- Claim C9: a generated pair round-trips through the credential format:
the composite keyId.keySecret splits on the dot into exactly the two
original parts; keyId is ck_ followed by 32 hex characters, keySecret is
sk_ followed by base64url characters, and neither part contains a dot, so
a fresh credential always passes the parser's two-part format check. -/
theorem generateApiKeyPair_roundtrip (keyIdBytes keySecretBytes : List Nat)
    (hlen : keyIdBytes.length = 16) :
    splitOnDot ((generateApiKeyPair keyIdBytes keySecretBytes).1 ++ '.' ::
        (generateApiKeyPair keyIdBytes keySecretBytes).2) =
      [(generateApiKeyPair keyIdBytes keySecretBytes).1,
       (generateApiKeyPair keyIdBytes keySecretBytes).2] ∧
    (generateApiKeyPair keyIdBytes keySecretBytes).1 =
      "ck_".toList ++ bytesToHex keyIdBytes ∧
    (bytesToHex keyIdBytes).length = 32 ∧
    (∀ c ∈ bytesToHex keyIdBytes, c ∈ hexDigitChars) ∧
    (generateApiKeyPair keyIdBytes keySecretBytes).2 =
      "sk_".toList ++ base64urlEncode keySecretBytes ∧
    (∀ c ∈ base64urlEncode keySecretBytes, c ∈ base64Chars) ∧
    '.' ∉ (generateApiKeyPair keyIdBytes keySecretBytes).1 ∧
    '.' ∉ (generateApiKeyPair keyIdBytes keySecretBytes).2 := by
  have hdot1 : '.' ∉ (generateApiKeyPair keyIdBytes keySecretBytes).1 := by
    intro hmem
    rcases List.mem_append.mp hmem with h | h
    · simp at h
    · exact absurd (bytesToHex_chars keyIdBytes '.' h) (by decide)
  have hdot2 : '.' ∉ (generateApiKeyPair keyIdBytes keySecretBytes).2 := by
    intro hmem
    rcases List.mem_append.mp hmem with h | h
    · simp at h
    · exact absurd (base64urlEncode_chars keySecretBytes '.' h) (by decide)
  refine ⟨splitOnDot_append _ _ hdot1 hdot2, rfl, ?_,
          bytesToHex_chars keyIdBytes, rfl,
          base64urlEncode_chars keySecretBytes, hdot1, hdot2⟩
  rw [bytesToHex_length, hlen]

/-- Byte inputs for the round-trip witness. -/
def wKeyIdBytes : List Nat := List.replicate 16 171

/-- Secret byte input for the round-trip witness. -/
def wSecretBytes : List Nat := [0, 1, 2, 250, 251, 252]

/-- Witness: the concrete generated credential splits back into its two
parts. -/
theorem generateApiKeyPair_roundtrip_witness :
    splitOnDot ((generateApiKeyPair wKeyIdBytes wSecretBytes).1 ++ '.' ::
        (generateApiKeyPair wKeyIdBytes wSecretBytes).2) =
      [(generateApiKeyPair wKeyIdBytes wSecretBytes).1,
       (generateApiKeyPair wKeyIdBytes wSecretBytes).2] :=
  (generateApiKeyPair_roundtrip wKeyIdBytes wSecretBytes (by decide)).1

end ChronoKMS
